import Mathlib

/-!
# Multicast join subsystem of `zeroconf` (`connection.go`)

A shallow embedding of `joinUdp4Multicast`, `joinUdp6Multicast` and
`listMulticastInterfaces`, with the host's socket layer made explicit:

* the host (`Host`) answers the interface query, every bind (`net.ListenMulticastUDP`)
  and every group join (`PacketConn.JoinGroup`); an answer may depend on the loop
  iteration at which the call is made, so the same interface may succeed at one
  list position and fail at another;
* every call the code makes on the socket layer is recorded, in order, in a trace of
  `Event`s; a socket is identified by the loop iteration that bound it;
* a Go `map[int]*PacketConn` is an association list with unique keys;
* Go `int` values (`Index`, `failedJoins`, `len`) are unbounded here: the code never
  does arithmetic on `Index`, and `failedJoins` is incremented at most once per slice
  element, so it never exceeds the slice length.
-/

namespace Zeroconf

/-! ## Data model -/

/-- Flag bit `net.FlagUp` (`1 << 0` in package `net`). -/
def FlagUp : Nat := 1

/-- Flag bit `net.FlagMulticast` (`1 << 4` in package `net`). -/
def FlagMulticast : Nat := 16

/-- Record `net.Interface`. -/
structure Interface where
  Index : Int
  MTU : Int
  Name : String
  HardwareAddr : List Nat
  Flags : Nat
  deriving DecidableEq, Repr

/-- Record `net.UDPAddr`; the IP is kept in its textual form. -/
structure UDPAddr where
  IP : String
  Port : Nat
  deriving DecidableEq, Repr

/-- Multicast group used by mDNS over IPv4, `net.IPv4(224, 0, 0, 251)`. -/
def mdnsGroupIPv4 : String := "224.0.0.251"

/-- Multicast group used by mDNS over IPv6, `net.ParseIP("ff02::fb")`. -/
def mdnsGroupIPv6 : String := "ff02::fb"

/-- The mDNS wildcard address for IPv4. -/
def mdnsWildcardAddrIPv4 : UDPAddr := { IP := "224.0.0.0", Port := 5353 }

/-- The mDNS wildcard address for IPv6. -/
def mdnsWildcardAddrIPv6 : UDPAddr := { IP := "ff02::", Port := 5353 }

/-- A packet connection (`*ipv4.PacketConn` / `*ipv6.PacketConn`): the socket it wraps,
named by the loop iteration that bound it, the network it was bound on and the
interface it was bound to. -/
structure PacketConn where
  sock : Nat
  network : String
  ifi : Interface
  deriving DecidableEq, Repr

/-- The host environment: the external collaborators of the subsystem.
`Interfaces` is the answer of `net.Interfaces()`;
`ListenMulticastUDP network i ifi gaddr` tells whether the bind made at loop
iteration `i` succeeds; `JoinGroup c ifi group` tells whether the group join on
connection `c` succeeds; `Sprint` is the `%v` rendering of an interface slice. -/
structure Host where
  Interfaces : Except String (List Interface)
  ListenMulticastUDP : String → Nat → Interface → UDPAddr → Bool
  JoinGroup : PacketConn → Interface → String → Bool
  Sprint : List Interface → String

/-- One call made on the socket layer. -/
inductive Event where
  | listen (network : String) (i : Nat) (ifi : Interface) (gaddr : UDPAddr) (ok : Bool)
  | setControlMessage (sock : Nat)
  | joinGroup (sock : Nat) (ifi : Interface) (group : String) (ok : Bool)
  | close (sock : Nat)
  deriving DecidableEq, Repr

/-- A Go `map[int]*PacketConn`: entries with pairwise distinct keys. -/
abbrev ConnMap := List (Int × PacketConn)

/-- Map assignment `m[k] = v`: an existing entry for `k` is replaced. -/
def mapAssign (m : ConnMap) (k : Int) (v : PacketConn) : ConnMap :=
  m.filter (fun e => e.1 != k) ++ [(k, v)]

/-- Keys of a map. -/
def mapKeys (m : ConnMap) : List Int := m.map Prod.fst

/-- Map read `m[k]`. -/
def mapGet (m : ConnMap) (k : Int) : Option PacketConn := m.lookup k

/-- The local variables of a join loop, together with the trace of the calls made so
far on the socket layer. -/
structure LoopState where
  pkConns : ConnMap
  failedJoins : Nat
  trace : List Event
  deriving DecidableEq, Repr

/-- What a join call hands back: the two Go return values (`none` is `nil`) and the
trace of the calls it made on the socket layer. -/
structure JoinResult where
  pkConns : Option ConnMap
  err : Option String
  trace : List Event
  deriving DecidableEq, Repr

/-! ## The program -/

/-- Function `listMulticastInterfaces`. -/
def listMulticastInterfaces (h : Host) : List Interface :=
  match h.Interfaces with
  | .error _ => []
  | .ok ifaces =>
    ifaces.foldl
      (fun interfaces ifi =>
        if ifi.Flags &&& FlagUp == 0 then interfaces
        else if ifi.Flags &&& FlagMulticast > 0 then interfaces ++ [ifi]
        else interfaces)
      []

/-- Body of the `for _, iface := range interfaces` loop of `joinUdp6Multicast`, at
iteration `p.1` with `iface = p.2`. -/
def joinUdp6Body (h : Host) (st : LoopState) (p : Nat × Interface) : LoopState :=
  let iface := p.2
  if h.ListenMulticastUDP "udp6" p.1 iface mdnsWildcardAddrIPv6 = false then
    { pkConns := st.pkConns
      failedJoins := st.failedJoins + 1
      trace := st.trace ++ [Event.listen "udp6" p.1 iface mdnsWildcardAddrIPv6 false] }
  else
    let pkConn : PacketConn := { sock := p.1, network := "udp6", ifi := iface }
    if h.JoinGroup pkConn iface mdnsGroupIPv6 = false then
      { pkConns := st.pkConns
        failedJoins := st.failedJoins + 1
        trace := st.trace ++
          [Event.listen "udp6" p.1 iface mdnsWildcardAddrIPv6 true,
           Event.setControlMessage p.1,
           Event.joinGroup p.1 iface mdnsGroupIPv6 false,
           Event.close p.1] }
    else
      { pkConns := mapAssign st.pkConns iface.Index pkConn
        failedJoins := st.failedJoins
        trace := st.trace ++
          [Event.listen "udp6" p.1 iface mdnsWildcardAddrIPv6 true,
           Event.setControlMessage p.1,
           Event.joinGroup p.1 iface mdnsGroupIPv6 true] }

/-- The loop of `joinUdp6Multicast` over the slice `interfaces`, from the initial
values of `pkConns` and `failedJoins`. -/
def joinUdp6Loop (h : Host) (interfaces : List Interface) : LoopState :=
  interfaces.enum.foldl (joinUdp6Body h) { pkConns := [], failedJoins := 0, trace := [] }

/-- Function `joinUdp6Multicast`. -/
def joinUdp6Multicast (h : Host) (interfaces : List Interface) : JoinResult :=
  let interfaces := if interfaces.length == 0 then listMulticastInterfaces h else interfaces
  let st := joinUdp6Loop h interfaces
  if st.failedJoins == interfaces.length then
    { pkConns := none
      err := some ("udp6: failed to join any of these interfaces: " ++ h.Sprint interfaces)
      trace := st.trace }
  else
    { pkConns := some st.pkConns, err := none, trace := st.trace }

/-- Body of the `for _, iface := range interfaces` loop of `joinUdp4Multicast`, at
iteration `p.1` with `iface = p.2`. -/
def joinUdp4Body (h : Host) (st : LoopState) (p : Nat × Interface) : LoopState :=
  let iface := p.2
  if h.ListenMulticastUDP "udp4" p.1 iface mdnsWildcardAddrIPv4 = false then
    { pkConns := st.pkConns
      failedJoins := st.failedJoins + 1
      trace := st.trace ++ [Event.listen "udp4" p.1 iface mdnsWildcardAddrIPv4 false] }
  else
    let pkConn : PacketConn := { sock := p.1, network := "udp4", ifi := iface }
    if h.JoinGroup pkConn iface mdnsGroupIPv4 = false then
      { pkConns := st.pkConns
        failedJoins := st.failedJoins + 1
        trace := st.trace ++
          [Event.listen "udp4" p.1 iface mdnsWildcardAddrIPv4 true,
           Event.setControlMessage p.1,
           Event.joinGroup p.1 iface mdnsGroupIPv4 false,
           Event.close p.1] }
    else
      { pkConns := mapAssign st.pkConns iface.Index pkConn
        failedJoins := st.failedJoins
        trace := st.trace ++
          [Event.listen "udp4" p.1 iface mdnsWildcardAddrIPv4 true,
           Event.setControlMessage p.1,
           Event.joinGroup p.1 iface mdnsGroupIPv4 true] }

/-- The loop of `joinUdp4Multicast` over the slice `interfaces`, from the initial
values of `pkConns` and `failedJoins`. -/
def joinUdp4Loop (h : Host) (interfaces : List Interface) : LoopState :=
  interfaces.enum.foldl (joinUdp4Body h) { pkConns := [], failedJoins := 0, trace := [] }

/-- Function `joinUdp4Multicast`. -/
def joinUdp4Multicast (h : Host) (interfaces : List Interface) : JoinResult :=
  let interfaces := if interfaces.length == 0 then listMulticastInterfaces h else interfaces
  let st := joinUdp4Loop h interfaces
  if st.failedJoins == interfaces.length then
    { pkConns := none
      err := some ("udp4: failed to join any of these interfaces: " ++ h.Sprint interfaces)
      trace := st.trace }
  else
    { pkConns := some st.pkConns, err := none, trace := st.trace }

/-! ## Vocabulary of the properties -/

/-- The two address families. -/
inductive Family where
  | udp4
  | udp6
  deriving DecidableEq, Repr

/-- Network name of a family. -/
def Family.network : Family → String
  | .udp4 => "udp4"
  | .udp6 => "udp6"

/-- Wildcard bind address of a family. -/
def Family.wildcard : Family → UDPAddr
  | .udp4 => mdnsWildcardAddrIPv4
  | .udp6 => mdnsWildcardAddrIPv6

/-- Multicast group of a family. -/
def Family.group : Family → String
  | .udp4 => mdnsGroupIPv4
  | .udp6 => mdnsGroupIPv6

/-- The join function of a family. -/
def joinMulticast : Family → Host → List Interface → JoinResult
  | .udp4 => joinUdp4Multicast
  | .udp6 => joinUdp6Multicast

/-- The join loop of a family. -/
def joinLoop : Family → Host → List Interface → LoopState
  | .udp4 => joinUdp4Loop
  | .udp6 => joinUdp6Loop

/-- The slice a join call iterates: the input, or the Enumerator's output when the
input is empty. -/
def iterated (h : Host) (interfaces : List Interface) : List Interface :=
  if interfaces.length == 0 then listMulticastInterfaces h else interfaces

/-- The connection made at iteration `i` on interface `ifi`. -/
def connAt (f : Family) (i : Nat) (ifi : Interface) : PacketConn :=
  { sock := i, network := f.network, ifi := ifi }

/-- Outcome of the bind step at iteration `i`. -/
def bindOk (f : Family) (h : Host) (i : Nat) (ifi : Interface) : Bool :=
  h.ListenMulticastUDP f.network i ifi f.wildcard

/-- Outcome of the join-group step at iteration `i` (meaningful when the bind
succeeded). -/
def joinOk (f : Family) (h : Host) (i : Nat) (ifi : Interface) : Bool :=
  h.JoinGroup (connAt f i ifi) ifi f.group

/-- The interface at iteration `i` succeeded at both steps. -/
def bothOk (f : Family) (h : Host) (i : Nat) (ifi : Interface) : Bool :=
  bindOk f h i ifi && joinOk f h i ifi

/-- Effect of one call on the set of open sockets: a successful bind opens the socket
of its iteration, a close closes its socket. -/
def sockStep (socks : List Nat) (e : Event) : List Nat :=
  match e with
  | .listen _ i _ _ true => socks ++ [i]
  | .close s => socks.filter (fun x => x != s)
  | _ => socks

/-- Sockets that are open after a trace: bound and not closed since. -/
def openSocks (trace : List Event) : List Nat :=
  trace.foldl sockStep []

/-- Number of entries of a returned map (`len` of a `nil` map is 0). -/
def mapLen : Option ConnMap → Nat
  | some m => m.length
  | none => 0

/-- The bind attempts of a trace, in order: iteration and interface. -/
def bindAttempts (trace : List Event) : List (Nat × Interface) :=
  trace.filterMap
    (fun e =>
      match e with
      | .listen _ i ifi _ _ => some (i, ifi)
      | _ => none)

/-- The join-group attempts of a trace, in order: socket and interface. -/
def joinAttempts (trace : List Event) : List (Nat × Interface) :=
  trace.filterMap
    (fun e =>
      match e with
      | .joinGroup s ifi _ _ => some (s, ifi)
      | _ => none)

/-- The calls one loop iteration makes on the socket layer. -/
def iterTrace (f : Family) (h : Host) (p : Nat × Interface) : List Event :=
  if bindOk f h p.1 p.2 = false then
    [Event.listen f.network p.1 p.2 f.wildcard false]
  else if joinOk f h p.1 p.2 = false then
    [Event.listen f.network p.1 p.2 f.wildcard true,
     Event.setControlMessage p.1,
     Event.joinGroup p.1 p.2 f.group false,
     Event.close p.1]
  else
    [Event.listen f.network p.1 p.2 f.wildcard true,
     Event.setControlMessage p.1,
     Event.joinGroup p.1 p.2 f.group true]

/-- Effect of one loop iteration on the map. -/
def iterConns (f : Family) (h : Host) (m : ConnMap) (p : Nat × Interface) : ConnMap :=
  if bothOk f h p.1 p.2 then mapAssign m p.2.Index (connAt f p.1 p.2) else m

/-- The last entry of `ps` with identifier `k` that succeeded at both steps. -/
def lastOk (f : Family) (h : Host) (ps : List (Nat × Interface)) (k : Int) :
    Option (Nat × Interface) :=
  (ps.filter (fun p => bothOk f h p.1 p.2 && p.2.Index == k)).getLast?

/-- The same call made for family `f`: the family constants of the call replaced by
those of `f`. -/
def Event.forFamily (f : Family) : Event → Event
  | .listen _ i ifi _ ok => .listen f.network i ifi f.wildcard ok
  | .joinGroup s ifi _ ok => .joinGroup s ifi f.group ok
  | .setControlMessage s => .setControlMessage s
  | .close s => .close s

/-- The loop body of a family. -/
def joinBody : Family → Host → LoopState → Nat × Interface → LoopState
  | .udp4 => joinUdp4Body
  | .udp6 => joinUdp6Body

/-! ## Sample interfaces and hosts -/

/-- An interface that is up and multicast-capable (flags up, broadcast, multicast). -/
def ifA : Interface :=
  { Index := 1, MTU := 1500, Name := "A", HardwareAddr := [], Flags := 19 }

/-- An interface that is down (flags broadcast, multicast). -/
def ifB : Interface :=
  { Index := 2, MTU := 1500, Name := "B", HardwareAddr := [], Flags := 18 }

/-- A second interface that is up and multicast-capable. -/
def ifC : Interface :=
  { Index := 3, MTU := 1500, Name := "C", HardwareAddr := [], Flags := 19 }

/-- An interface that is up but not multicast-capable (flags up, loopback). -/
def ifLo : Interface :=
  { Index := 4, MTU := 65536, Name := "lo", HardwareAddr := [], Flags := 5 }

/-- A list entry that carries the identifier of `ifA` and is up. -/
def ifA2 : Interface :=
  { Index := 1, MTU := 1500, Name := "A2", HardwareAddr := [], Flags := 19 }

/-- A list entry that carries the identifier of `ifA` and is down. -/
def ifADown : Interface :=
  { Index := 1, MTU := 1500, Name := "A3", HardwareAddr := [], Flags := 18 }

/-- A rendering of an interface slice by the names of its elements. -/
def sprintNames (l : List Interface) : String :=
  "[" ++ " ".intercalate (l.map Interface.Name) ++ "]"

/-- A host that reports four interfaces, on which a bind succeeds exactly on the
interfaces that are up and every group join succeeds. -/
def hostUp : Host :=
  { Interfaces := .ok [ifA, ifB, ifC, ifLo]
    ListenMulticastUDP := fun _ _ ifi _ => ifi.Flags.testBit 0
    JoinGroup := fun _ _ _ => true
    Sprint := sprintNames }

/-- A host without a multicast route: every bind succeeds, every group join fails. -/
def hostNoRoute : Host :=
  { Interfaces := .ok [ifA]
    ListenMulticastUDP := fun _ _ _ _ => true
    JoinGroup := fun _ _ _ => false
    Sprint := sprintNames }

/-- A host on which every bind succeeds and the group join fails on the interface
with identifier 1 only. -/
def hostJoinA : Host :=
  { Interfaces := .ok [ifA, ifC]
    ListenMulticastUDP := fun _ _ _ _ => true
    JoinGroup := fun _ ifi _ => ifi.Index != 1
    Sprint := sprintNames }

/-- A host whose interface query fails. -/
def hostNoQuery : Host :=
  { Interfaces := .error "route ip+net: netlinkrib: too many open files"
    ListenMulticastUDP := fun _ _ _ _ => true
    JoinGroup := fun _ _ _ => true
    Sprint := sprintNames }

/-! ## The loop in closed form -/

theorem joinBody_eq (f : Family) (h : Host) (st : LoopState) (p : Nat × Interface) :
    joinBody f h st p =
      { pkConns := iterConns f h st.pkConns p
        failedJoins := st.failedJoins + (if bothOk f h p.1 p.2 then 0 else 1)
        trace := st.trace ++ iterTrace f h p } := by
  cases f
  · simp only [joinBody, joinUdp4Body, iterConns, iterTrace, bothOk, bindOk,
      joinOk, connAt, Family.network, Family.wildcard, Family.group]
    by_cases hb : h.ListenMulticastUDP "udp4" p.1 p.2 mdnsWildcardAddrIPv4 = false <;>
      by_cases hj : h.JoinGroup { sock := p.1, network := "udp4", ifi := p.2 } p.2 mdnsGroupIPv4 = false <;>
      simp_all
  · simp only [joinBody, joinUdp6Body, iterConns, iterTrace, bothOk, bindOk,
      joinOk, connAt, Family.network, Family.wildcard, Family.group]
    by_cases hb : h.ListenMulticastUDP "udp6" p.1 p.2 mdnsWildcardAddrIPv6 = false <;>
      by_cases hj : h.JoinGroup { sock := p.1, network := "udp6", ifi := p.2 } p.2 mdnsGroupIPv6 = false <;>
      simp_all

theorem foldl_joinBody (f : Family) (h : Host) (ps : List (Nat × Interface)) (st : LoopState) :
    ps.foldl (joinBody f h) st =
      { pkConns := ps.foldl (iterConns f h) st.pkConns
        failedJoins := st.failedJoins + ps.countP (fun p => !bothOk f h p.1 p.2)
        trace := st.trace ++ ps.flatMap (iterTrace f h) } := by
  induction ps generalizing st with
  | nil => simp
  | cons p ps ih =>
    rw [List.foldl_cons, ih, joinBody_eq]
    cases hb : bothOk f h p.1 p.2 <;>
      simp [List.countP_cons, hb, Nat.add_assoc, Nat.add_comm]

theorem joinLoop_eq (f : Family) (h : Host) (l : List Interface) :
    joinLoop f h l =
      { pkConns := l.enum.foldl (iterConns f h) []
        failedJoins := l.enum.countP (fun p => !bothOk f h p.1 p.2)
        trace := l.enum.flatMap (iterTrace f h) } := by
  have key : joinLoop f h l =
      l.enum.foldl (joinBody f h) { pkConns := [], failedJoins := 0, trace := [] } := by
    cases f <;> rfl
  rw [key, foldl_joinBody]
  simp

theorem joinMulticast_eq (f : Family) (h : Host) (l : List Interface) :
    joinMulticast f h l =
      if (joinLoop f h (iterated h l)).failedJoins = (iterated h l).length then
        { pkConns := none
          err := some (f.network ++ ": failed to join any of these interfaces: " ++
            h.Sprint (iterated h l))
          trace := (joinLoop f h (iterated h l)).trace }
      else
        { pkConns := some (joinLoop f h (iterated h l)).pkConns
          err := none
          trace := (joinLoop f h (iterated h l)).trace } := by
  cases f <;>
    simp only [joinMulticast, joinUdp4Multicast, joinUdp6Multicast, joinLoop, iterated,
      Family.network, beq_iff_eq] <;>
    split <;> rfl

/-! ## Maps -/

theorem mapGet_cons_self (m : ConnMap) (k : Int) (v : PacketConn) :
    mapGet ((k, v) :: m) k = some v := by
  simp [mapGet, List.lookup_cons]

theorem mapGet_cons_ne (m : ConnMap) {k a : Int} (v : PacketConn) (hne : k ≠ a) :
    mapGet ((a, v) :: m) k = mapGet m k := by
  have hb : (k == a) = false := beq_eq_false_iff_ne.2 hne
  simp only [mapGet, List.lookup_cons, hb]

theorem mapGet_filter_self (m : ConnMap) (k : Int) :
    mapGet (m.filter (fun e => e.1 != k)) k = none := by
  induction m with
  | nil => rfl
  | cons e m ih =>
    obtain ⟨a, b⟩ := e
    by_cases hk : a = k
    · simpa [List.filter_cons, hk] using ih
    · have hk2 : k ≠ a := fun h => hk h.symm
      have hf : List.filter (fun e => e.1 != k) ((a, b) :: m) =
          (a, b) :: List.filter (fun e => e.1 != k) m := by
        simp [List.filter_cons, hk]
      rw [hf, mapGet_cons_ne _ _ hk2, ih]

theorem mapGet_filter_ne (m : ConnMap) {k k2 : Int} (hne : k2 ≠ k) :
    mapGet (m.filter (fun e => e.1 != k)) k2 = mapGet m k2 := by
  induction m with
  | nil => rfl
  | cons e m ih =>
    obtain ⟨a, b⟩ := e
    by_cases hk : a = k
    · have hk2 : k2 ≠ a := fun h => hne (h.trans hk)
      have hf : List.filter (fun e => e.1 != k) ((a, b) :: m) =
          List.filter (fun e => e.1 != k) m := by
        simp [List.filter_cons, hk]
      rw [hf, mapGet_cons_ne _ _ hk2, ih]
    · have hf : List.filter (fun e => e.1 != k) ((a, b) :: m) =
          (a, b) :: List.filter (fun e => e.1 != k) m := by
        simp [List.filter_cons, hk]
      rw [hf]
      by_cases hk2 : k2 = a
      · subst hk2
        rw [mapGet_cons_self, mapGet_cons_self]
      · rw [mapGet_cons_ne _ _ hk2, mapGet_cons_ne _ _ hk2, ih]

theorem mapGet_mapAssign (m : ConnMap) (k k2 : Int) (v : PacketConn) :
    mapGet (mapAssign m k v) k2 = if k2 = k then some v else mapGet m k2 := by
  have happ : mapGet (mapAssign m k v) k2 =
      (mapGet (m.filter (fun e => e.1 != k)) k2).or (mapGet [(k, v)] k2) := by
    simp only [mapGet, mapAssign, List.lookup_append]
  rw [happ]
  by_cases hk : k2 = k
  · subst hk
    rw [mapGet_filter_self, mapGet_cons_self]
    simp
  · rw [mapGet_filter_ne m hk, mapGet_cons_ne _ _ hk]
    simp [hk, mapGet]

theorem mem_mapKeys_iff (m : ConnMap) (k : Int) :
    k ∈ mapKeys m ↔ ∃ v, mapGet m k = some v := by
  induction m with
  | nil => simp [mapKeys, mapGet]
  | cons e m ih =>
    obtain ⟨a, b⟩ := e
    by_cases hk : k = a
    · subst hk
      simp [mapKeys, mapGet_cons_self]
    · rw [mapGet_cons_ne _ _ hk, ← ih]
      simp [mapKeys, hk]

theorem mem_iff_mapGet {m : ConnMap} (hm : (mapKeys m).Nodup) (k : Int) (v : PacketConn) :
    (k, v) ∈ m ↔ mapGet m k = some v := by
  induction m with
  | nil => simp [mapGet]
  | cons e m ih =>
    obtain ⟨a, b⟩ := e
    have hnd : a ∉ mapKeys m ∧ (mapKeys m).Nodup := by
      simpa [mapKeys] using hm
    by_cases hk : k = a
    · subst hk
      have hnot : ∀ w, (k, w) ∉ m := fun w hw =>
        hnd.1 (List.mem_map.2 ⟨(k, w), hw, rfl⟩)
      rw [mapGet_cons_self]
      simp [hnot, eq_comm]
    · rw [mapGet_cons_ne _ _ hk, ← ih hnd.2]
      simp [hk]

theorem nodup_mapKeys_mapAssign {m : ConnMap} (hm : (mapKeys m).Nodup) (k : Int)
    (v : PacketConn) : (mapKeys (mapAssign m k v)).Nodup := by
  unfold mapAssign mapKeys
  rw [List.map_append, List.nodup_append]
  refine ⟨(List.filter_sublist m).map Prod.fst |>.nodup hm, by simp, ?_⟩
  intro a ha hb
  simp only [List.mem_map, List.mem_filter, List.mem_singleton] at ha hb
  obtain ⟨e, ⟨_, he⟩, rfl⟩ := ha
  obtain ⟨e2, rfl, he2⟩ := hb
  simp at he
  exact he he2.symm

/-! ## The map built by the loop -/

theorem nodup_mapKeys_foldl (f : Family) (h : Host) (ps : List (Nat × Interface))
    {m : ConnMap} (hm : (mapKeys m).Nodup) :
    (mapKeys (ps.foldl (iterConns f h) m)).Nodup := by
  induction ps generalizing m with
  | nil => simpa using hm
  | cons p ps ih =>
    rw [List.foldl_cons]
    apply ih
    unfold iterConns
    split
    · exact nodup_mapKeys_mapAssign hm _ _
    · exact hm

theorem lastOk_concat (f : Family) (h : Host) (ps : List (Nat × Interface))
    (p : Nat × Interface) (k : Int) :
    lastOk f h (ps ++ [p]) k =
      if bothOk f h p.1 p.2 = true ∧ p.2.Index = k then some p else lastOk f h ps k := by
  unfold lastOk
  rw [List.filter_append]
  by_cases hp : bothOk f h p.1 p.2 = true ∧ p.2.Index = k
  · have hf : List.filter (fun p => bothOk f h p.1 p.2 && p.2.Index == k) [p] = [p] := by
      simp [List.filter_cons, hp.1, hp.2]
    rw [hf, List.getLast?_concat, if_pos hp]
  · have hf : List.filter (fun p => bothOk f h p.1 p.2 && p.2.Index == k) [p] = [] := by
      simp only [List.filter_cons, List.filter_nil]
      have : (bothOk f h p.1 p.2 && p.2.Index == k) = false := by
        cases hb : bothOk f h p.1 p.2
        · rfl
        · simpa [hb] using hp
      rw [this]
      rfl
    rw [hf, List.append_nil, if_neg hp]

theorem mapGet_foldl (f : Family) (h : Host) (ps : List (Nat × Interface)) (k : Int) :
    mapGet (ps.foldl (iterConns f h) []) k =
      (lastOk f h ps k).map (fun p => connAt f p.1 p.2) := by
  induction ps using List.reverseRecOn with
  | nil => rfl
  | append_singleton ps p ih =>
    rw [List.foldl_concat, lastOk_concat]
    generalize hM : List.foldl (iterConns f h) [] ps = M at ih ⊢
    unfold iterConns
    by_cases hb : bothOk f h p.1 p.2 = true
    · rw [if_pos hb, mapGet_mapAssign]
      by_cases hk : k = p.2.Index
      · subst hk
        simp [hb]
      · have hk2 : ¬ p.2.Index = k := fun e => hk e.symm
        simp [hk, hk2, ih]
    · rw [if_neg hb, ih]
      simp [hb]

theorem lastOk_some (f : Family) (h : Host) {ps : List (Nat × Interface)} {k : Int}
    {q : Nat × Interface} (hq : lastOk f h ps k = some q) :
    q ∈ ps ∧ bothOk f h q.1 q.2 = true ∧ q.2.Index = k := by
  unfold lastOk at hq
  have hmem := List.mem_of_getLast?_eq_some hq
  simpa [List.mem_filter] using hmem

theorem lastOk_exists (f : Family) (h : Host) {ps : List (Nat × Interface)}
    {p : Nat × Interface} (hp : p ∈ ps) (hb : bothOk f h p.1 p.2 = true) :
    ∃ q, lastOk f h ps p.2.Index = some q := by
  unfold lastOk
  have hmem : p ∈ ps.filter (fun q => bothOk f h q.1 q.2 && q.2.Index == p.2.Index) := by
    simp [List.mem_filter, hp, hb]
  cases hl : (ps.filter (fun q => bothOk f h q.1 q.2 && q.2.Index == p.2.Index)).getLast? with
  | some q => exact ⟨q, rfl⟩
  | none =>
    rw [List.getLast?_eq_none_iff] at hl
    rw [hl] at hmem
    cases hmem

theorem lastOk_max (f : Family) (h : Host) {ps : List (Nat × Interface)}
    (hps : ps.Pairwise (fun a b => a.1 < b.1)) {k : Int} {q p : Nat × Interface}
    (hq : lastOk f h ps k = some q) (hp : p ∈ ps) (hb : bothOk f h p.1 p.2 = true)
    (hk : p.2.Index = k) : p.1 ≤ q.1 := by
  unfold lastOk at hq
  have hmem : p ∈ ps.filter (fun q => bothOk f h q.1 q.2 && q.2.Index == k) := by
    simp [List.mem_filter, hp, hb, hk]
  have hpw := hps.sublist (List.filter_sublist (p := fun q => bothOk f h q.1 q.2 && q.2.Index == k) ps)
  obtain ⟨ys, hys⟩ := List.getLast?_eq_some_iff.1 hq
  rw [hys] at hmem hpw
  rw [List.pairwise_append] at hpw
  rcases List.mem_append.1 hmem with h1 | h1
  · exact Nat.le_of_lt (hpw.2.2 p h1 q (List.mem_singleton.2 rfl))
  · rw [List.mem_singleton.1 h1]

theorem pairwise_enum (l : List Interface) : l.enum.Pairwise (fun a b => a.1 < b.1) := by
  have h1 : (l.enum.map Prod.fst).Pairwise (fun a b => a < b) := by
    rw [List.enum_map_fst]
    exact List.pairwise_lt_range _
  exact List.pairwise_map.1 h1

/-! ## The failure counter and the two return paths -/

theorem failedJoins_eq_length_iff (f : Family) (h : Host) (l : List Interface) :
    (joinLoop f h l).failedJoins = l.length ↔
      ∀ i ifi, l[i]? = some ifi → bindOk f h i ifi = false ∨ joinOk f h i ifi = false := by
  rw [joinLoop_eq]
  show l.enum.countP (fun p => !bothOk f h p.1 p.2) = l.length ↔ _
  conv_lhs => rw [← List.enum_length (l := l)]
  rw [List.countP_eq_length]
  constructor
  · intro hall i ifi hi
    have := hall (i, ifi) (List.mk_mem_enum_iff_getElem?.2 hi)
    simpa [bothOk] using this
  · intro hall p hp
    have := hall p.1 p.2 (List.mem_enum_iff_getElem?.1 hp)
    simpa [bothOk] using this

theorem joinMulticast_of_all_failed (f : Family) (h : Host) (l : List Interface)
    (hall : ∀ i ifi, (iterated h l)[i]? = some ifi →
      bindOk f h i ifi = false ∨ joinOk f h i ifi = false) :
    joinMulticast f h l =
      { pkConns := none
        err := some (f.network ++ ": failed to join any of these interfaces: " ++
          h.Sprint (iterated h l))
        trace := (joinLoop f h (iterated h l)).trace } := by
  rw [joinMulticast_eq, if_pos ((failedJoins_eq_length_iff f h _).2 hall)]

theorem joinMulticast_of_some_ok (f : Family) (h : Host) (l : List Interface)
    (hsome : ¬ ∀ i ifi, (iterated h l)[i]? = some ifi →
      bindOk f h i ifi = false ∨ joinOk f h i ifi = false) :
    joinMulticast f h l =
      { pkConns := some (joinLoop f h (iterated h l)).pkConns
        err := none
        trace := (joinLoop f h (iterated h l)).trace } := by
  rw [joinMulticast_eq, if_neg (fun e => hsome ((failedJoins_eq_length_iff f h _).1 e))]

theorem iterated_of_ne_nil (h : Host) {l : List Interface} (hne : l ≠ []) :
    iterated h l = l := by
  cases l with
  | nil => exact absurd rfl hne
  | cons a l => simp [iterated]

theorem iterated_nil (h : Host) : iterated h [] = listMulticastInterfaces h := by
  simp [iterated]

theorem iterated_idem (h : Host) (l : List Interface) :
    iterated h (iterated h l) = iterated h l := by
  cases hl : iterated h l with
  | nil =>
    cases l with
    | nil => rw [iterated_nil] at hl ⊢; exact hl
    | cons a l => simp [iterated] at hl
  | cons a t => exact iterated_of_ne_nil h (List.cons_ne_nil a t)

/-- Keys of the map built by the loop: the identifiers of the list positions that
succeeded at both steps. -/
theorem mem_mapKeys_joinLoop (f : Family) (h : Host) (l : List Interface) (k : Int) :
    k ∈ mapKeys (joinLoop f h l).pkConns ↔
      ∃ i ifi, l[i]? = some ifi ∧ bindOk f h i ifi = true ∧ joinOk f h i ifi = true ∧
        ifi.Index = k := by
  rw [joinLoop_eq, mem_mapKeys_iff]
  show (∃ v, mapGet (l.enum.foldl (iterConns f h) []) k = some v) ↔ _
  rw [mapGet_foldl]
  constructor
  · rintro ⟨v, hv⟩
    cases hq : lastOk f h l.enum k with
    | none => rw [hq] at hv; cases hv
    | some q =>
      obtain ⟨hmem, hb, hk⟩ := lastOk_some f h hq
      refine ⟨q.1, q.2, List.mem_enum_iff_getElem?.1 hmem, ?_, ?_, hk⟩
      · simp only [bothOk, Bool.and_eq_true] at hb; exact hb.1
      · simp only [bothOk, Bool.and_eq_true] at hb; exact hb.2
  · rintro ⟨i, ifi, hi, hb, hj, hk⟩
    have hmem : (i, ifi) ∈ l.enum := List.mk_mem_enum_iff_getElem?.2 hi
    have hok : bothOk f h (i, ifi).1 (i, ifi).2 = true := by simp [bothOk, hb, hj]
    obtain ⟨q, hq⟩ := lastOk_exists f h hmem hok
    subst hk
    exact ⟨_, by rw [hq]; rfl⟩

/-! ## The interface enumerator -/

theorem flagUp_clear_iff (n : Nat) : (n &&& FlagUp == 0) = !n.testBit 0 := by
  have h := Nat.and_two_pow n 0
  simp only [pow_zero, Nat.mul_one] at h
  rw [FlagUp, h]
  cases n.testBit 0 <;> rfl

theorem flagMulticast_set_iff (n : Nat) : decide (n &&& FlagMulticast > 0) = n.testBit 4 := by
  have h := Nat.and_two_pow n 4
  have h16 : (2 : Nat) ^ 4 = 16 := by norm_num
  rw [h16] at h
  rw [FlagMulticast, h]
  cases n.testBit 4 <;> simp

theorem foldl_flags_eq_filter (l acc : List Interface) :
    l.foldl
      (fun interfaces ifi =>
        if ifi.Flags &&& FlagUp == 0 then interfaces
        else if ifi.Flags &&& FlagMulticast > 0 then interfaces ++ [ifi]
        else interfaces)
      acc = acc ++ l.filter (fun ifi => ifi.Flags.testBit 0 && ifi.Flags.testBit 4) := by
  induction l generalizing acc with
  | nil => simp
  | cons a l ih =>
    rw [List.foldl_cons, ih, List.filter_cons]
    have h1 := flagUp_clear_iff a.Flags
    have h2 := flagMulticast_set_iff a.Flags
    cases hu : a.Flags.testBit 0 <;> cases hm : a.Flags.testBit 4 <;>
      simp_all

/-! ## Entries of the map and open sockets -/

theorem nodup_mapKeys_joinLoop (f : Family) (h : Host) (l : List Interface) :
    (mapKeys (joinLoop f h l).pkConns).Nodup := by
  rw [joinLoop_eq]
  exact nodup_mapKeys_foldl f h l.enum (m := []) List.nodup_nil

theorem mem_joinLoop_iff (f : Family) (h : Host) (l : List Interface) (k : Int)
    (c : PacketConn) :
    (k, c) ∈ (joinLoop f h l).pkConns ↔
      (lastOk f h l.enum k).map (fun p => connAt f p.1 p.2) = some c := by
  rw [mem_iff_mapGet (nodup_mapKeys_joinLoop f h l), joinLoop_eq]
  show mapGet (l.enum.foldl (iterConns f h) []) k = some c ↔ _
  rw [mapGet_foldl]

theorem mem_joinLoop (f : Family) (h : Host) (l : List Interface) {k : Int}
    {c : PacketConn} (hmem : (k, c) ∈ (joinLoop f h l).pkConns) :
    ∃ i ifi, l[i]? = some ifi ∧ ifi.Index = k ∧ c = connAt f i ifi ∧
      bindOk f h i ifi = true ∧ joinOk f h i ifi = true := by
  rw [mem_joinLoop_iff] at hmem
  cases hq : lastOk f h l.enum k with
  | none => rw [hq] at hmem; cases hmem
  | some q =>
    rw [hq] at hmem
    obtain ⟨hq1, hb, hk⟩ := lastOk_some f h hq
    simp only [bothOk, Bool.and_eq_true] at hb
    refine ⟨q.1, q.2, List.mem_enum_iff_getElem?.1 hq1, hk, ?_, hb.1, hb.2⟩
    simpa using hmem.symm

theorem joinMulticast_trace (f : Family) (h : Host) (l : List Interface) :
    (joinMulticast f h l).trace = (iterated h l).enum.flatMap (iterTrace f h) := by
  rw [joinMulticast_eq]
  split <;> rw [joinLoop_eq]

theorem openSocks_append (t u : List Event) :
    openSocks (t ++ u) = u.foldl sockStep (openSocks t) := by
  simp [openSocks, List.foldl_append]

theorem foldl_sockStep_iterTrace (f : Family) (h : Host) (p : Nat × Interface)
    (socks : List Nat) (hp : p.1 ∉ socks) :
    (iterTrace f h p).foldl sockStep socks =
      if bothOk f h p.1 p.2 then socks ++ [p.1] else socks := by
  unfold iterTrace bothOk
  by_cases hb : bindOk f h p.1 p.2 = false
  · simp [hb, sockStep]
  · by_cases hj : joinOk f h p.1 p.2 = false
    · have hb2 : bindOk f h p.1 p.2 = true := by simpa using hb
      simp only [hb2, hj, List.foldl_cons, List.foldl_nil]
      show (socks ++ [p.1]).filter (fun x => x != p.1) = socks
      rw [List.filter_append, List.filter_eq_self.2]
      · simp
      · intro a ha
        have hne : a ≠ p.1 := fun e => hp (e ▸ ha)
        simpa using hne
    · have hb2 : bindOk f h p.1 p.2 = true := by simpa using hb
      have hj2 : joinOk f h p.1 p.2 = true := by simpa using hj
      simp [hb2, hj2, sockStep]

theorem openSocks_flatMap (f : Family) (h : Host) (ps : List (Nat × Interface))
    (hps : ps.Pairwise (fun a b => a.1 < b.1)) :
    openSocks (ps.flatMap (iterTrace f h)) =
      (ps.filter (fun p => bothOk f h p.1 p.2)).map Prod.fst := by
  induction ps using List.reverseRecOn with
  | nil => rfl
  | append_singleton ps p ih =>
    rw [List.pairwise_append] at hps
    have hnew : p.1 ∉ (ps.filter (fun p => bothOk f h p.1 p.2)).map Prod.fst := by
      intro hmem
      obtain ⟨q, hq, hqp⟩ := List.mem_map.1 hmem
      have hlt := hps.2.2 q (List.mem_filter.1 hq).1 p (List.mem_singleton.2 rfl)
      omega
    rw [List.flatMap_append, openSocks_append, ih hps.1]
    simp only [List.flatMap_cons, List.flatMap_nil, List.append_nil]
    rw [foldl_sockStep_iterTrace f h p _ hnew, List.filter_append, List.map_append]
    cases hb : bothOk f h p.1 p.2 <;> simp [List.filter_cons, hb]

theorem mem_openSocks_joinMulticast (f : Family) (h : Host) (l : List Interface) (s : Nat) :
    s ∈ openSocks (joinMulticast f h l).trace ↔
      ∃ ifi, (iterated h l)[s]? = some ifi ∧
        bindOk f h s ifi = true ∧ joinOk f h s ifi = true := by
  rw [joinMulticast_trace, openSocks_flatMap f h _ (pairwise_enum _)]
  simp only [List.mem_map, List.mem_filter, bothOk, Bool.and_eq_true]
  constructor
  · rintro ⟨q, ⟨hq, hb⟩, rfl⟩
    exact ⟨q.2, List.mem_enum_iff_getElem?.1 hq, hb.1, hb.2⟩
  · rintro ⟨ifi, hi, hb⟩
    exact ⟨(s, ifi), ⟨List.mk_mem_enum_iff_getElem?.2 hi, hb⟩, rfl⟩

theorem mem_trace_joinMulticast (f : Family) (h : Host) (l : List Interface) (e : Event) :
    e ∈ (joinMulticast f h l).trace ↔
      ∃ i ifi, (iterated h l)[i]? = some ifi ∧ e ∈ iterTrace f h (i, ifi) := by
  rw [joinMulticast_trace, List.mem_flatMap]
  constructor
  · rintro ⟨q, hq, he⟩
    exact ⟨q.1, q.2, List.mem_enum_iff_getElem?.1 hq, he⟩
  · rintro ⟨i, ifi, hi, he⟩
    exact ⟨(i, ifi), List.mk_mem_enum_iff_getElem?.2 hi, he⟩

theorem pkConns_eq_some (f : Family) (h : Host) (l : List Interface) {m : ConnMap}
    (hm : (joinMulticast f h l).pkConns = some m) :
    m = (joinLoop f h (iterated h l)).pkConns ∧
      (joinLoop f h (iterated h l)).failedJoins ≠ (iterated h l).length := by
  rw [joinMulticast_eq] at hm
  split at hm
  · cases hm
  · rename_i hne
    exact ⟨(Option.some.inj hm).symm, hne⟩

/-! ## Attempts made on the socket layer -/

theorem bindAttempts_iterTrace (f : Family) (h : Host) (p : Nat × Interface) :
    bindAttempts (iterTrace f h p) = [p] := by
  unfold iterTrace bindAttempts
  by_cases hb : bindOk f h p.1 p.2 = false
  · simp [hb]
  · by_cases hj : joinOk f h p.1 p.2 = false <;> simp [hb, hj]

theorem joinAttempts_iterTrace (f : Family) (h : Host) (p : Nat × Interface) :
    joinAttempts (iterTrace f h p) = if bindOk f h p.1 p.2 then [p] else [] := by
  unfold iterTrace joinAttempts
  by_cases hb : bindOk f h p.1 p.2 = false
  · simp [hb]
  · by_cases hj : joinOk f h p.1 p.2 = false <;> simp [hb, hj]

theorem bindAttempts_flatMap (f : Family) (h : Host) (ps : List (Nat × Interface)) :
    bindAttempts (ps.flatMap (iterTrace f h)) = ps := by
  induction ps with
  | nil => rfl
  | cons p ps ih =>
    have happ : bindAttempts ((p :: ps).flatMap (iterTrace f h)) =
        bindAttempts (iterTrace f h p) ++ bindAttempts (ps.flatMap (iterTrace f h)) := by
      simp [bindAttempts, List.filterMap_append]
    rw [happ, ih, bindAttempts_iterTrace]
    rfl

theorem joinAttempts_flatMap (f : Family) (h : Host) (ps : List (Nat × Interface)) :
    joinAttempts (ps.flatMap (iterTrace f h)) =
      ps.filter (fun p => bindOk f h p.1 p.2) := by
  induction ps with
  | nil => rfl
  | cons p ps ih =>
    have happ : joinAttempts ((p :: ps).flatMap (iterTrace f h)) =
        joinAttempts (iterTrace f h p) ++ joinAttempts (ps.flatMap (iterTrace f h)) := by
      simp [joinAttempts, List.filterMap_append]
    rw [happ, ih, joinAttempts_iterTrace, List.filter_cons]
    cases bindOk f h p.1 p.2 <;> rfl

theorem join_after_bind_iterTrace (f : Family) (h : Host) (p : Nat × Interface)
    (pre post : List Event) (s : Nat) (ifi : Interface) (g : String) (ok : Bool)
    (hsplit : iterTrace f h p = pre ++ Event.joinGroup s ifi g ok :: post) :
    Event.listen f.network s ifi f.wildcard true ∈ pre := by
  unfold iterTrace at hsplit
  split at hsplit
  · rcases pre with _ | ⟨a, _ | ⟨b, pre⟩⟩ <;> simp at hsplit
  · split at hsplit
    · rcases pre with _ | ⟨a, _ | ⟨b, _ | ⟨c, _ | ⟨d, pre⟩⟩⟩⟩ <;> simp at hsplit
      obtain ⟨rfl, _, ⟨rfl, rfl, _⟩, _⟩ := hsplit
      simp
    · rcases pre with _ | ⟨a, _ | ⟨b, _ | ⟨c, _ | ⟨d, pre⟩⟩⟩⟩ <;> simp at hsplit
      obtain ⟨rfl, _, ⟨rfl, rfl, _⟩, _⟩ := hsplit
      simp

theorem join_after_bind_flatMap (f : Family) (h : Host) (ps : List (Nat × Interface))
    (pre post : List Event) (s : Nat) (ifi : Interface) (g : String) (ok : Bool)
    (hsplit : ps.flatMap (iterTrace f h) = pre ++ Event.joinGroup s ifi g ok :: post) :
    Event.listen f.network s ifi f.wildcard true ∈ pre := by
  induction ps generalizing pre with
  | nil =>
    rcases pre with _ | ⟨a, pre⟩ <;> simp at hsplit
  | cons p ps ih =>
    rw [List.flatMap_cons, List.append_eq_append_iff] at hsplit
    rcases hsplit with ⟨a2, hpre, hrest⟩ | ⟨c2, hit, hrest⟩
    · rw [hpre]
      exact List.mem_append_right _ (ih a2 hrest)
    · rcases c2 with _ | ⟨e, c2⟩
      · have := ih [] (by simpa using hrest.symm)
        cases this
      · rw [List.cons_append] at hrest
        obtain ⟨he, _⟩ := List.cons.inj hrest
        rw [← he] at hit
        exact join_after_bind_iterTrace f h p pre c2 s ifi g ok hit

/-! ## The two families side by side -/

theorem mapKeys_mapAssign (m : ConnMap) (k : Int) (v : PacketConn) :
    mapKeys (mapAssign m k v) = (mapKeys m).filter (fun x => x != k) ++ [k] := by
  simp [mapKeys, mapAssign, List.filter_map, Function.comp_def]

theorem mapKeys_foldl_congr (h : Host) (ps : List (Nat × Interface))
    (hok : ∀ p ∈ ps, bothOk Family.udp4 h p.1 p.2 = bothOk Family.udp6 h p.1 p.2)
    (m4 m6 : ConnMap) (hm : mapKeys m4 = mapKeys m6) :
    mapKeys (ps.foldl (iterConns Family.udp4 h) m4) =
      mapKeys (ps.foldl (iterConns Family.udp6 h) m6) := by
  induction ps generalizing m4 m6 with
  | nil => simpa using hm
  | cons p ps ih =>
    rw [List.foldl_cons, List.foldl_cons]
    apply ih (fun q hq => hok q (List.mem_cons_of_mem _ hq))
    have hp := hok p (List.mem_cons_self _ _)
    unfold iterConns
    rw [← hp]
    cases bothOk Family.udp4 h p.1 p.2
    · simpa using hm
    · simp only [if_true, mapKeys_mapAssign, hm]

theorem iterTrace_forFamily (h : Host) (p : Nat × Interface)
    (hb : bindOk Family.udp4 h p.1 p.2 = bindOk Family.udp6 h p.1 p.2)
    (hj : joinOk Family.udp4 h p.1 p.2 = joinOk Family.udp6 h p.1 p.2) :
    iterTrace Family.udp6 h p = (iterTrace Family.udp4 h p).map (Event.forFamily Family.udp6) := by
  unfold iterTrace
  rw [← hb, ← hj]
  cases bindOk Family.udp4 h p.1 p.2 <;> cases joinOk Family.udp4 h p.1 p.2 <;> rfl

/-! ## Duplicate and distinct identifiers -/

theorem index_inj {l : List Interface} (hnd : (l.map Interface.Index).Nodup) {i j : Nat}
    {a b : Interface} (hi : l[i]? = some a) (hj : l[j]? = some b)
    (hidx : a.Index = b.Index) : i = j := by
  have hmap : l.enum.map (fun p => p.2.Index) = l.map Interface.Index := by
    conv_rhs => rw [← List.enum_map_snd l, List.map_map]
    rfl
  rw [← hmap] at hnd
  have := List.inj_on_of_nodup_map hnd (List.mk_mem_enum_iff_getElem?.2 hi)
    (List.mk_mem_enum_iff_getElem?.2 hj) hidx
  exact congrArg Prod.fst this

theorem mapGet_joinLoop (f : Family) (h : Host) (l : List Interface) (k : Int) :
    mapGet (joinLoop f h l).pkConns k =
      (lastOk f h l.enum k).map (fun p => connAt f p.1 p.2) := by
  rw [joinLoop_eq]
  exact mapGet_foldl f h l.enum k

theorem length_pkConns_joinLoop (f : Family) (h : Host) (l : List Interface) :
    (joinLoop f h l).pkConns.length =
      ((l.enum.filter (fun p => bothOk f h p.1 p.2)).map (fun p => p.2.Index)).dedup.length := by
  have hperm : (mapKeys (joinLoop f h l).pkConns).Perm
      ((l.enum.filter (fun p => bothOk f h p.1 p.2)).map (fun p => p.2.Index)).dedup := by
    rw [List.perm_ext_iff_of_nodup (nodup_mapKeys_joinLoop f h l) (List.nodup_dedup _)]
    intro k
    rw [mem_mapKeys_joinLoop, List.mem_dedup, List.mem_map]
    constructor
    · rintro ⟨i, ifi, hi, hb, hj, hk⟩
      refine ⟨(i, ifi), List.mem_filter.2 ⟨List.mk_mem_enum_iff_getElem?.2 hi, ?_⟩, hk⟩
      simp [bothOk, hb, hj]
    · rintro ⟨q, hq, hk⟩
      obtain ⟨hq1, hq2⟩ := List.mem_filter.1 hq
      simp only [bothOk, Bool.and_eq_true] at hq2
      exact ⟨q.1, q.2, List.mem_enum_iff_getElem?.1 hq1, hq2.1, hq2.2, hk⟩
  have hlen := hperm.length_eq
  simpa [mapKeys] using hlen

theorem length_sub_failedJoins (f : Family) (h : Host) (l : List Interface) :
    l.length - (joinLoop f h l).failedJoins =
      ((l.enum.filter (fun p => bothOk f h p.1 p.2)).map (fun p => p.2.Index)).length := by
  rw [joinLoop_eq]
  show l.length - l.enum.countP (fun p => !bothOk f h p.1 p.2) = _
  have hsplit := List.length_eq_countP_add_countP (fun p => bothOk f h p.1 p.2) l.enum
  have hcongr : l.enum.countP (fun p => decide ¬bothOk f h p.1 p.2 = true) =
      l.enum.countP (fun p => !bothOk f h p.1 p.2) :=
    List.countP_congr (fun p _ => by cases bothOk f h p.1 p.2 <;> simp)
  rw [hcongr, List.enum_length] at hsplit
  rw [List.length_map, ← List.countP_eq_length_filter]
  omega

theorem close_mem_trace_iff (f : Family) (h : Host) (l : List Interface) (s : Nat) :
    Event.close s ∈ (joinMulticast f h l).trace ↔
      ∃ ifi, (iterated h l)[s]? = some ifi ∧
        bindOk f h s ifi = true ∧ joinOk f h s ifi = false := by
  rw [mem_trace_joinMulticast]
  constructor
  · rintro ⟨i, ifi, hi, he⟩
    unfold iterTrace at he
    by_cases hb : bindOk f h i ifi = false
    · simp [hb] at he
    · by_cases hj : joinOk f h i ifi = false
      · simp [hb, hj] at he
        subst he
        exact ⟨ifi, hi, by simpa using hb, hj⟩
      · simp [hb, hj] at he
  · rintro ⟨ifi, hi, hb, hj⟩
    exact ⟨s, ifi, hi, by simp [iterTrace, hb, hj]⟩

theorem listen_mem_trace (f : Family) (h : Host) (l : List Interface) {n : String}
    {s : Nat} {ifi : Interface} {g : UDPAddr}
    (he : Event.listen n s ifi g true ∈ (joinMulticast f h l).trace) :
    (iterated h l)[s]? = some ifi ∧ bindOk f h s ifi = true := by
  rw [mem_trace_joinMulticast] at he
  obtain ⟨i, ifi2, hi, he⟩ := he
  unfold iterTrace at he
  by_cases hb : bindOk f h i ifi2 = false
  · simp [hb] at he
  · have hb2 : bindOk f h i ifi2 = true := by simpa using hb
    by_cases hj : joinOk f h i ifi2 = false
    · simp [hb, hj] at he
      obtain ⟨_, rfl, rfl, _⟩ := he
      exact ⟨hi, hb2⟩
    · simp [hb, hj] at he
      obtain ⟨_, rfl, rfl, _⟩ := he
      exact ⟨hi, hb2⟩

theorem dedup_length_lt {l : List Int} (hdup : ¬ l.Nodup) : l.dedup.length < l.length := by
  rcases Nat.lt_or_ge l.dedup.length l.length with hlt | hge
  · exact hlt
  · have heq := (List.dedup_sublist l).eq_of_length
      (Nat.le_antisymm (List.dedup_sublist l).length_le hge)
    exact absurd (heq ▸ List.nodup_dedup l) hdup

theorem duplicate_identifier (f : Family) (h : Host) (l : List Interface)
    (i j : Nat) (a b : Interface) (hij : i < j)
    (hi : (iterated h l)[i]? = some a) (hj : (iterated h l)[j]? = some b)
    (hidx : a.Index = b.Index)
    (hbi : bindOk f h i a = true) (hji : joinOk f h i a = true)
    (hbj : bindOk f h j b = true) (hjj : joinOk f h j b = true) :
    ∃ m c, (joinMulticast f h l).pkConns = some m ∧
      (mapKeys m).count a.Index = 1 ∧ mapGet m a.Index = some c ∧ j ≤ c.sock ∧
      ((∀ j2 b2, j < j2 → (iterated h l)[j2]? = some b2 → b2.Index = a.Index →
          bindOk f h j2 b2 = false ∨ joinOk f h j2 b2 = false) → c = connAt f j b) ∧
      Event.close i ∉ (joinMulticast f h l).trace ∧
      i ∈ openSocks (joinMulticast f h l).trace ∧
      (∀ e ∈ m, e.2.sock ≠ i) ∧
      m.length < (iterated h l).length - (joinLoop f h (iterated h l)).failedJoins := by
  have hsome : ¬ ∀ i ifi, (iterated h l)[i]? = some ifi →
      bindOk f h i ifi = false ∨ joinOk f h i ifi = false := by
    intro hall
    rcases hall i a hi with h1 | h1
    · rw [hbi] at h1; cases h1
    · rw [hji] at h1; cases h1
  have hmi : (i, a) ∈ (iterated h l).enum := List.mk_mem_enum_iff_getElem?.2 hi
  have hmj : (j, b) ∈ (iterated h l).enum := List.mk_mem_enum_iff_getElem?.2 hj
  have hoki : bothOk f h (i, a).1 (i, a).2 = true := by simp [bothOk, hbi, hji]
  have hokj : bothOk f h (j, b).1 (j, b).2 = true := by simp [bothOk, hbj, hjj]
  obtain ⟨q, hq⟩ := lastOk_exists f h hmi hoki
  have hq' : lastOk f h (iterated h l).enum a.Index = some q := hq
  have hjq : j ≤ q.1 := lastOk_max f h (pairwise_enum _) hq' hmj hokj hidx.symm
  obtain ⟨hqmem, hqok, hqidx⟩ := lastOk_some f h hq'
  have hqget := List.mem_enum_iff_getElem?.1 hqmem
  simp only [bothOk, Bool.and_eq_true] at hqok
  have hres := joinMulticast_of_some_ok f h l hsome
  refine ⟨(joinLoop f h (iterated h l)).pkConns, connAt f q.1 q.2, ?_, ?_, ?_, hjq, ?_, ?_,
    ?_, ?_, ?_⟩
  · rw [hres]
  · exact List.count_eq_one_of_mem (nodup_mapKeys_joinLoop f h _)
      ((mem_mapKeys_joinLoop f h _ _).2 ⟨i, a, hi, hbi, hji, rfl⟩)
  · rw [mapGet_joinLoop, hq']
    rfl
  · intro hlast
    have hqj : q.1 = j := by
      by_contra hne
      have hlt : j < q.1 := by omega
      rcases hlast q.1 q.2 hlt hqget hqidx with h1 | h1
      · rw [hqok.1] at h1; cases h1
      · rw [hqok.2] at h1; cases h1
    rw [hqj] at hqget
    rw [hj] at hqget
    cases hqget
    rw [hqj]
  · rw [close_mem_trace_iff]
    rintro ⟨ifi, hi2, _, hj2⟩
    rw [hi] at hi2
    cases hi2
    rw [hji] at hj2
    cases hj2
  · rw [mem_openSocks_joinMulticast]
    exact ⟨a, hi, hbi, hji⟩
  · intro e he hsock
    have he2 : (e.1, e.2) ∈ (joinLoop f h (iterated h l)).pkConns := he
    rw [mem_joinLoop_iff] at he2
    cases hq2 : lastOk f h (iterated h l).enum e.1 with
    | none => rw [hq2] at he2; cases he2
    | some q2 =>
      rw [hq2] at he2
      have hc : connAt f q2.1 q2.2 = e.2 := by simpa using he2
      obtain ⟨hq2mem, _, hq2idx⟩ := lastOk_some f h hq2
      have hq2get := List.mem_enum_iff_getElem?.1 hq2mem
      have hs : q2.1 = i := by rw [← hsock, ← hc]; rfl
      rw [hs, hi] at hq2get
      cases hq2get
      rw [← hq2idx, hq'] at hq2
      have : q.1 = q2.1 := by rw [Option.some.inj hq2]
      omega
  · rw [length_pkConns_joinLoop, length_sub_failedJoins]
    apply dedup_length_lt
    intro hnd
    have hfi : (i, a) ∈ (iterated h l).enum.filter (fun p => bothOk f h p.1 p.2) :=
      List.mem_filter.2 ⟨hmi, hoki⟩
    have hfj : (j, b) ∈ (iterated h l).enum.filter (fun p => bothOk f h p.1 p.2) :=
      List.mem_filter.2 ⟨hmj, hokj⟩
    have := List.inj_on_of_nodup_map hnd hfi hfj hidx
    have hij2 : i = j := congrArg Prod.fst this
    omega

theorem distinct_identifiers (f : Family) (h : Host) (l : List Interface)
    (hnd : ((iterated h l).map Interface.Index).Nodup) :
    mapLen (joinMulticast f h l).pkConns =
      (iterated h l).length - (joinLoop f h (iterated h l)).failedJoins ∧
    ∀ n s ifi g, Event.listen n s ifi g true ∈ (joinMulticast f h l).trace →
      (Event.close s ∈ (joinMulticast f h l).trace ∧
        s ∉ openSocks (joinMulticast f h l).trace) ∨
      ∃ m e, (joinMulticast f h l).pkConns = some m ∧ e ∈ m ∧ e.2.sock = s := by
  have hKnd : ((List.filter (fun p => bothOk f h p.1 p.2) (iterated h l).enum).map
      (fun p => p.2.Index)).Nodup := by
    have hmap : (iterated h l).enum.map (fun p => p.2.Index) =
        (iterated h l).map Interface.Index := by
      conv_rhs => rw [← List.enum_map_snd (iterated h l), List.map_map]
      rfl
    rw [← hmap] at hnd
    exact ((List.filter_sublist _).map _).nodup hnd
  constructor
  · rw [joinMulticast_eq]
    split
    · rename_i hfail
      rw [hfail]
      simp [mapLen]
    · show (joinLoop f h (iterated h l)).pkConns.length = _
      rw [length_pkConns_joinLoop, length_sub_failedJoins, hKnd.dedup]
  · intro n s ifi g he
    obtain ⟨hs, hb⟩ := listen_mem_trace f h l he
    cases hj : joinOk f h s ifi with
    | false =>
      left
      refine ⟨(close_mem_trace_iff f h l s).2 ⟨ifi, hs, hb, hj⟩, ?_⟩
      rw [mem_openSocks_joinMulticast]
      rintro ⟨ifi2, hs2, _, hj2⟩
      rw [hs] at hs2
      cases hs2
      rw [hj] at hj2
      cases hj2
    | true =>
      right
      have hsome : ¬ ∀ i ifi, (iterated h l)[i]? = some ifi →
          bindOk f h i ifi = false ∨ joinOk f h i ifi = false := by
        intro hall
        rcases hall s ifi hs with h1 | h1
        · rw [hb] at h1; cases h1
        · rw [hj] at h1; cases h1
      have hms : (s, ifi) ∈ (iterated h l).enum := List.mk_mem_enum_iff_getElem?.2 hs
      have hok : bothOk f h (s, ifi).1 (s, ifi).2 = true := by simp [bothOk, hb, hj]
      obtain ⟨q, hq⟩ := lastOk_exists f h hms hok
      have hq' : lastOk f h (iterated h l).enum ifi.Index = some q := hq
      obtain ⟨hqmem, _, hqidx⟩ := lastOk_some f h hq'
      have hqs : q.1 = s :=
        index_inj hnd (List.mem_enum_iff_getElem?.1 hqmem) hs hqidx
      refine ⟨(joinLoop f h (iterated h l)).pkConns, (ifi.Index, connAt f q.1 q.2), ?_, ?_, hqs⟩
      · rw [joinMulticast_of_some_ok f h l hsome]
      · rw [mem_joinLoop_iff, hq']
        rfl

/-! ## The claims -/

/-- C1: a join call of either family returns an error exactly when every interface of
the iterated list (the input, or the Enumerator's output when the input is empty)
failed its bind step or its join step; in particular, when the input is empty and the
Enumerator returns nothing, the call returns the error. -/
theorem join_error_iff_all_failed (f : Family) (h : Host) (interfaces : List Interface) :
    ((joinMulticast f h interfaces).err.isSome = true ↔
      ∀ i ifi, (iterated h interfaces)[i]? = some ifi →
        bindOk f h i ifi = false ∨ joinOk f h i ifi = false) ∧
    (interfaces = [] → listMulticastInterfaces h = [] →
      (joinMulticast f h interfaces).err.isSome = true) := by
  have hiff : (joinMulticast f h interfaces).err.isSome = true ↔
      ∀ i ifi, (iterated h interfaces)[i]? = some ifi →
        bindOk f h i ifi = false ∨ joinOk f h i ifi = false := by
    constructor
    · intro herr
      by_contra hsome
      rw [joinMulticast_of_some_ok f h interfaces hsome] at herr
      cases herr
    · intro hall
      rw [joinMulticast_of_all_failed f h interfaces hall]
      rfl
  refine ⟨hiff, ?_⟩
  intro hnil hlist
  apply hiff.2
  intro i ifi hi
  subst hnil
  rw [iterated_nil, hlist] at hi
  simp at hi

/-- C1, on the host whose interface query fails: the empty input is replaced by an
empty enumeration and the IPv4 call returns the error. -/
theorem join_error_iff_all_failed_witness :
    (([] : List Interface) = [] ∧ listMulticastInterfaces hostNoQuery = []) ∧
      (joinMulticast Family.udp4 hostNoQuery []).err.isSome = true :=
  ⟨⟨rfl, rfl⟩, (join_error_iff_all_failed Family.udp4 hostNoQuery []).2 rfl rfl⟩

/-- C2: for a non-empty interface list in which at least one interface succeeds at both
the bind and the join step, a join call of either family returns no error and a
non-empty mapping whose keys are exactly the identifiers of the interfaces that
succeeded at both steps. -/
theorem join_some_ok (f : Family) (h : Host) (interfaces : List Interface)
    (hne : interfaces ≠ [])
    (hok : ∃ i ifi, interfaces[i]? = some ifi ∧
      bindOk f h i ifi = true ∧ joinOk f h i ifi = true) :
    ∃ m, (joinMulticast f h interfaces).pkConns = some m ∧
      (joinMulticast f h interfaces).err = none ∧
      m ≠ [] ∧
      ∀ k, k ∈ mapKeys m ↔
        ∃ i ifi, interfaces[i]? = some ifi ∧
          bindOk f h i ifi = true ∧ joinOk f h i ifi = true ∧ ifi.Index = k := by
  have hit := iterated_of_ne_nil h hne
  have hsome : ¬ ∀ i ifi, (iterated h interfaces)[i]? = some ifi →
      bindOk f h i ifi = false ∨ joinOk f h i ifi = false := by
    intro hall
    obtain ⟨i, ifi, hi, hb, hj⟩ := hok
    rw [hit] at hall
    rcases hall i ifi hi with h1 | h1
    · rw [hb] at h1; cases h1
    · rw [hj] at h1; cases h1
  rw [joinMulticast_of_some_ok f h interfaces hsome, hit]
  refine ⟨_, rfl, rfl, ?_, mem_mapKeys_joinLoop f h interfaces⟩
  intro hnil
  obtain ⟨i, ifi, hi, hb, hj⟩ := hok
  have hk := (mem_mapKeys_joinLoop f h interfaces ifi.Index).2 ⟨i, ifi, hi, hb, hj, rfl⟩
  rw [hnil] at hk
  cases hk

/-- C2, on the list `[A, B, C]` where only `B` fails to bind: no error, and a mapping
whose keys are the identifiers of `A` and `C`. -/
theorem join_some_ok_witness :
    ([ifA, ifB, ifC] ≠ [] ∧
      ∃ i ifi, [ifA, ifB, ifC][i]? = some ifi ∧
        bindOk Family.udp4 hostUp i ifi = true ∧ joinOk Family.udp4 hostUp i ifi = true) ∧
    (∃ m, (joinMulticast Family.udp4 hostUp [ifA, ifB, ifC]).pkConns = some m ∧
      (joinMulticast Family.udp4 hostUp [ifA, ifB, ifC]).err = none ∧
      m ≠ [] ∧
      ∀ k, k ∈ mapKeys m ↔
        ∃ i ifi, [ifA, ifB, ifC][i]? = some ifi ∧
          bindOk Family.udp4 hostUp i ifi = true ∧ joinOk Family.udp4 hostUp i ifi = true ∧
            ifi.Index = k) ∧
    (joinMulticast Family.udp4 hostUp [ifA, ifB, ifC]).pkConns.map mapKeys = some [1, 3] :=
  ⟨⟨by decide, 0, ifA, rfl, rfl, rfl⟩,
    join_some_ok Family.udp4 hostUp [ifA, ifB, ifC] (by decide) ⟨0, ifA, rfl, rfl, rfl⟩,
    by decide⟩

/-- C3: when every interface of the iterated list fails to bind or fails to join, a
join call of either family returns no mapping and an error whose message is the family
prefix, then `: failed to join any of these interfaces: `, then the rendering of the
iterated list (the enumerated list when the input was empty). -/
theorem join_all_failed (f : Family) (h : Host) (interfaces : List Interface)
    (hall : ∀ i ifi, (iterated h interfaces)[i]? = some ifi →
      bindOk f h i ifi = false ∨ joinOk f h i ifi = false) :
    (joinMulticast f h interfaces).pkConns = none ∧
    (joinMulticast f h interfaces).err =
      some (f.network ++ ": failed to join any of these interfaces: " ++
        h.Sprint (iterated h interfaces)) ∧
    (f.network = "udp4" ∨ f.network = "udp6") := by
  rw [joinMulticast_of_all_failed f h interfaces hall]
  refine ⟨rfl, rfl, ?_⟩
  cases f
  · exact Or.inl rfl
  · exact Or.inr rfl

/-- C3, on the single interface `A` whose group join fails: no mapping, and the IPv6
error naming `[A]`. -/
theorem join_all_failed_witness :
    (∀ i ifi, (iterated hostNoRoute [ifA])[i]? = some ifi →
      bindOk Family.udp6 hostNoRoute i ifi = false ∨
        joinOk Family.udp6 hostNoRoute i ifi = false) ∧
    (joinMulticast Family.udp6 hostNoRoute [ifA]).pkConns = none ∧
    (joinMulticast Family.udp6 hostNoRoute [ifA]).err =
      some ("udp6: failed to join any of these interfaces: " ++ hostNoRoute.Sprint [ifA]) :=
  ⟨fun _ _ _ => Or.inr rfl,
    (join_all_failed Family.udp6 hostNoRoute [ifA] (fun _ _ _ => Or.inr rfl)).1,
    (join_all_failed Family.udp6 hostNoRoute [ifA] (fun _ _ _ => Or.inr rfl)).2.1⟩

/-- C5: for a fixed host, a join call of either family on the empty list gives the
same result (return values and calls made on the socket layer) as a call on the
Enumerator's output. -/
theorem join_empty_eq_join_enumerated (f : Family) (h : Host) :
    joinMulticast f h [] = joinMulticast f h (listMulticastInterfaces h) := by
  rw [joinMulticast_eq, joinMulticast_eq f h (listMulticastInterfaces h)]
  have h1 := iterated_idem h []
  rw [iterated_nil] at h1
  rw [iterated_nil, h1]

/-- C6: the Enumerator returns the interfaces reported by the host that have both the
up flag (bit 0) and the multicast flag (bit 4) set, in the order reported and nothing
else, and returns the empty list when the host's query fails. -/
theorem listMulticastInterfaces_eq_filter (h : Host) :
    listMulticastInterfaces h =
      match h.Interfaces with
      | .ok ifaces => ifaces.filter (fun ifi => ifi.Flags.testBit 0 && ifi.Flags.testBit 4)
      | .error _ => [] := by
  unfold listMulticastInterfaces
  cases h.Interfaces with
  | error e => rfl
  | ok ifaces => simpa using foldl_flags_eq_filter ifaces []

/-- C4, as stated, fails: on the list `[ifA, ifADown]` the second entry fails to bind,
yet the IPv4 call returns a mapping that has its identifier (1) as a key, through the
first entry. -/
theorem join_key_of_failed_interface :
    (joinMulticast Family.udp4 hostUp [ifA, ifADown]).pkConns =
        some [(1, connAt Family.udp4 0 ifA)] ∧
      (iterated hostUp [ifA, ifADown])[1]? = some ifADown ∧
      bindOk Family.udp4 hostUp 1 ifADown = false ∧
      ifADown.Index ∈ mapKeys [(1, connAt Family.udp4 0 ifA)] ∧
      ¬ ∀ (f : Family) (h : Host) (interfaces : List Interface) (m : ConnMap) (i : Nat)
          (ifi : Interface),
          (joinMulticast f h interfaces).pkConns = some m →
          (iterated h interfaces)[i]? = some ifi →
          bindOk f h i ifi = false ∨ joinOk f h i ifi = false →
          ifi.Index ∉ mapKeys m := by
  refine ⟨by decide, by decide, by decide, by decide, ?_⟩
  intro hall
  exact hall Family.udp4 hostUp [ifA, ifADown] [(1, connAt Family.udp4 0 ifA)] 1 ifADown
    (by decide) (by decide) (Or.inl (by decide)) (by decide)

/-- C4, amended: every entry of the mapping returned by a join call of either family
was made by a list position that succeeded at both the bind and the join step (its key
is the identifier of the interface at that position, its connection the one bound
there); so the mapping has no key for an interface that failed a step, unless another
entry of the iterated list with the same identifier succeeded at both steps. -/
theorem join_entries_succeeded (f : Family) (h : Host) (interfaces : List Interface)
    (m : ConnMap) (hm : (joinMulticast f h interfaces).pkConns = some m) :
    (∀ k c, (k, c) ∈ m →
      ∃ i ifi, (iterated h interfaces)[i]? = some ifi ∧ ifi.Index = k ∧
        c = connAt f i ifi ∧ bindOk f h i ifi = true ∧ joinOk f h i ifi = true) ∧
    (∀ i ifi, (iterated h interfaces)[i]? = some ifi →
      (bindOk f h i ifi = false ∨ joinOk f h i ifi = false) →
      (∀ j other, (iterated h interfaces)[j]? = some other → j ≠ i →
        other.Index = ifi.Index →
        bindOk f h j other = false ∨ joinOk f h j other = false) →
      ifi.Index ∉ mapKeys m) := by
  obtain ⟨rfl, _⟩ := pkConns_eq_some f h interfaces hm
  refine ⟨fun k c hmem => mem_joinLoop f h _ hmem, ?_⟩
  intro i ifi hi hfail hothers hkey
  obtain ⟨j, other, hj, hb, hjn, hk⟩ := (mem_mapKeys_joinLoop f h _ _).1 hkey
  by_cases hji : j = i
  · subst hji
    rw [hi] at hj
    cases hj
    rcases hfail with h1 | h1
    · rw [hb] at h1; cases h1
    · rw [hjn] at h1; cases h1
  · rcases hothers j other hj hji hk with h1 | h1
    · rw [hb] at h1; cases h1
    · rw [hjn] at h1; cases h1

/-- C4, amended, on the list `[A, B, C]` where `B` fails to bind: the mapping has no key
for `B`. -/
theorem join_entries_succeeded_witness :
    (joinMulticast Family.udp4 hostUp [ifA, ifB, ifC]).pkConns =
        some [(1, connAt Family.udp4 0 ifA), (3, connAt Family.udp4 2 ifC)] ∧
      ifB.Index ∉ mapKeys [(1, connAt Family.udp4 0 ifA), (3, connAt Family.udp4 2 ifC)] :=
  ⟨by decide,
    (join_entries_succeeded Family.udp4 hostUp [ifA, ifB, ifC]
      [(1, connAt Family.udp4 0 ifA), (3, connAt Family.udp4 2 ifC)] (by decide)).2
      1 ifB (by decide) (Or.inl (by decide))
      (fun j other hj hne hidx => by
        have hlt : j < 3 := by
          by_contra hge
          have : [ifA, ifB, ifC][j]? = none := List.getElem?_eq_none (by simpa using hge)
          have hj2 : [ifA, ifB, ifC][j]? = some other := hj
          rw [this] at hj2
          cases hj2
        have hj2 : [ifA, ifB, ifC][j]? = some other := hj
        interval_cases j
        · cases hj2; exact absurd hidx (by decide)
        · exact absurd rfl hne
        · cases hj2; exact absurd hidx (by decide))⟩

/-- C7: a socket that a join call of either family bound successfully and whose
group join failed has been closed when the call returns (it was bound, a close was
issued on it, and it is not among the open sockets), and no entry of the returned
mapping holds it. -/
theorem failed_join_socket_closed (f : Family) (h : Host) (interfaces : List Interface)
    (i : Nat) (ifi : Interface) (hi : (iterated h interfaces)[i]? = some ifi)
    (hb : bindOk f h i ifi = true) (hj : joinOk f h i ifi = false) :
    Event.listen f.network i ifi f.wildcard true ∈ (joinMulticast f h interfaces).trace ∧
    Event.close i ∈ (joinMulticast f h interfaces).trace ∧
    i ∉ openSocks (joinMulticast f h interfaces).trace ∧
    ∀ m, (joinMulticast f h interfaces).pkConns = some m → ∀ e ∈ m, e.2.sock ≠ i := by
  refine ⟨?_, ?_, ?_, ?_⟩
  · rw [mem_trace_joinMulticast]
    exact ⟨i, ifi, hi, by simp [iterTrace, hb, hj]⟩
  · rw [mem_trace_joinMulticast]
    exact ⟨i, ifi, hi, by simp [iterTrace, hb, hj]⟩
  · rw [mem_openSocks_joinMulticast]
    rintro ⟨ifi2, hi2, _, hj2⟩
    rw [hi] at hi2
    cases hi2
    rw [hj] at hj2
    cases hj2
  · intro m hm e he hsock
    obtain ⟨rfl, _⟩ := pkConns_eq_some f h interfaces hm
    obtain ⟨i2, ifi2, hi2, _, hc, _, hj2⟩ := mem_joinLoop f h _ (k := e.1) (c := e.2) he
    rw [hc] at hsock
    have : i2 = i := hsock
    subst this
    rw [hi] at hi2
    cases hi2
    rw [hj] at hj2
    cases hj2

/-- C7, on the lists `[C, A]` of a host where the group join fails on `A` only. -/
theorem failed_join_socket_closed_witness :
    ((iterated hostJoinA [ifC, ifA])[1]? = some ifA ∧
      bindOk Family.udp4 hostJoinA 1 ifA = true ∧ joinOk Family.udp4 hostJoinA 1 ifA = false) ∧
    Event.close 1 ∈ (joinMulticast Family.udp4 hostJoinA [ifC, ifA]).trace ∧
    1 ∉ openSocks (joinMulticast Family.udp4 hostJoinA [ifC, ifA]).trace ∧
    (joinMulticast Family.udp4 hostJoinA [ifC, ifA]).pkConns =
      some [(3, connAt Family.udp4 0 ifC)] :=
  ⟨⟨by decide, by decide, by decide⟩,
    (failed_join_socket_closed Family.udp4 hostJoinA [ifC, ifA] 1 ifA
      (by decide) (by decide) (by decide)).2.1,
    (failed_join_socket_closed Family.udp4 hostJoinA [ifC, ifA] 1 ifA
      (by decide) (by decide) (by decide)).2.2.1,
    by decide⟩

/-- C9: within one join call of either family the bind attempts are exactly the
positions of the iterated list, one attempt per position and in list order; the
group-join attempts are exactly the positions whose bind succeeded, each once and in
list order; and every group-join attempt comes after the successful bind of the same
position. -/
theorem attempts_once_in_order (f : Family) (h : Host) (interfaces : List Interface) :
    bindAttempts (joinMulticast f h interfaces).trace = (iterated h interfaces).enum ∧
    joinAttempts (joinMulticast f h interfaces).trace =
      (iterated h interfaces).enum.filter (fun p => bindOk f h p.1 p.2) ∧
    ((bindAttempts (joinMulticast f h interfaces).trace).map Prod.fst).Nodup ∧
    ((joinAttempts (joinMulticast f h interfaces).trace).map Prod.fst).Nodup ∧
    ∀ pre post s ifi g ok,
      (joinMulticast f h interfaces).trace = pre ++ Event.joinGroup s ifi g ok :: post →
      Event.listen f.network s ifi f.wildcard true ∈ pre := by
  have hb := bindAttempts_flatMap f h (iterated h interfaces).enum
  have hj := joinAttempts_flatMap f h (iterated h interfaces).enum
  have hnd := List.nodup_enum_map_fst (iterated h interfaces)
  rw [joinMulticast_trace, hb, hj]
  refine ⟨rfl, rfl, hnd, ?_, ?_⟩
  · exact ((List.filter_sublist _).map Prod.fst).nodup hnd
  · intro pre post s ifi g ok hsplit
    exact join_after_bind_flatMap f h _ pre post s ifi g ok hsplit

/-- C9, on the list `[A, B, C]` where `B` fails to bind: three bind attempts, two
group-join attempts, and the join on socket 2 comes after the bind of position 2. -/
theorem attempts_once_in_order_witness :
    bindAttempts (joinMulticast Family.udp4 hostUp [ifA, ifB, ifC]).trace =
        [(0, ifA), (1, ifB), (2, ifC)] ∧
      joinAttempts (joinMulticast Family.udp4 hostUp [ifA, ifB, ifC]).trace =
        [(0, ifA), (2, ifC)] ∧
      Event.listen "udp4" 2 ifC mdnsWildcardAddrIPv4 true ∈
        [Event.listen "udp4" 0 ifA mdnsWildcardAddrIPv4 true,
         Event.setControlMessage 0,
         Event.joinGroup 0 ifA mdnsGroupIPv4 true,
         Event.listen "udp4" 1 ifB mdnsWildcardAddrIPv4 false,
         Event.listen "udp4" 2 ifC mdnsWildcardAddrIPv4 true,
         Event.setControlMessage 2] :=
  ⟨(attempts_once_in_order Family.udp4 hostUp [ifA, ifB, ifC]).1,
    by decide,
    (attempts_once_in_order Family.udp4 hostUp [ifA, ifB, ifC]).2.2.2.2 _ [] 2 ifC
      mdnsGroupIPv4 true (by decide)⟩

/-- C8: when the bind and join outcomes are common to both families, the IPv4 and the
IPv6 join call agree on whether an error is returned, on the keys of the returned
mapping and on the calls made on the socket layer up to the family constants (network
name, wildcard address, group address); the error messages differ in their prefix
only. -/
theorem families_agree (h : Host) (interfaces : List Interface)
    (hbind : ∀ i ifi, bindOk Family.udp4 h i ifi = bindOk Family.udp6 h i ifi)
    (hjoin : ∀ i ifi, joinOk Family.udp4 h i ifi = joinOk Family.udp6 h i ifi) :
    (joinUdp4Multicast h interfaces).err.isSome = (joinUdp6Multicast h interfaces).err.isSome ∧
    (joinUdp4Multicast h interfaces).pkConns.map mapKeys =
      (joinUdp6Multicast h interfaces).pkConns.map mapKeys ∧
    (joinUdp6Multicast h interfaces).trace =
      (joinUdp4Multicast h interfaces).trace.map (Event.forFamily Family.udp6) ∧
    ((joinUdp4Multicast h interfaces).err = none ∧ (joinUdp6Multicast h interfaces).err = none ∨
      ∃ rest, (joinUdp4Multicast h interfaces).err = some ("udp4" ++ rest) ∧
        (joinUdp6Multicast h interfaces).err = some ("udp6" ++ rest)) := by
  have hboth : ∀ i ifi, bothOk Family.udp4 h i ifi = bothOk Family.udp6 h i ifi := by
    intro i ifi
    simp only [bothOk, hbind, hjoin]
  have h4 : joinUdp4Multicast h interfaces = joinMulticast Family.udp4 h interfaces := rfl
  have h6 : joinUdp6Multicast h interfaces = joinMulticast Family.udp6 h interfaces := rfl
  have hcount : (joinLoop Family.udp4 h (iterated h interfaces)).failedJoins =
      (joinLoop Family.udp6 h (iterated h interfaces)).failedJoins := by
    rw [joinLoop_eq, joinLoop_eq]
    exact List.countP_congr (fun p _ => by rw [hboth])
  have hkeys : mapKeys (joinLoop Family.udp4 h (iterated h interfaces)).pkConns =
      mapKeys (joinLoop Family.udp6 h (iterated h interfaces)).pkConns := by
    rw [joinLoop_eq, joinLoop_eq]
    exact mapKeys_foldl_congr h _ (fun p _ => hboth p.1 p.2) [] [] rfl
  have htrace : (joinLoop Family.udp6 h (iterated h interfaces)).trace =
      (joinLoop Family.udp4 h (iterated h interfaces)).trace.map
        (Event.forFamily Family.udp6) := by
    rw [joinLoop_eq, joinLoop_eq]
    show List.flatMap _ _ = List.map _ (List.flatMap _ _)
    rw [List.map_flatMap]
    congr 1
    funext p
    exact iterTrace_forFamily h p (hbind p.1 p.2) (hjoin p.1 p.2)
  rw [h4, h6, joinMulticast_eq, joinMulticast_eq, ← hcount]
  by_cases hfail : (joinLoop Family.udp4 h (iterated h interfaces)).failedJoins =
      (iterated h interfaces).length
  · rw [if_pos hfail, if_pos hfail]
    refine ⟨rfl, rfl, htrace, Or.inr
      ⟨": failed to join any of these interfaces: " ++ h.Sprint (iterated h interfaces),
        congrArg some (String.append_assoc _ _ _), congrArg some (String.append_assoc _ _ _)⟩⟩
  · rw [if_neg hfail, if_neg hfail]
    refine ⟨rfl, ?_, htrace, Or.inl ⟨rfl, rfl⟩⟩
    show some _ = some _
    rw [hkeys]

/-- C8, on the list `[A, B, C]` of a host whose outcomes do not depend on the
family. -/
theorem families_agree_witness :
    ((∀ i ifi, bindOk Family.udp4 hostUp i ifi = bindOk Family.udp6 hostUp i ifi) ∧
      (∀ i ifi, joinOk Family.udp4 hostUp i ifi = joinOk Family.udp6 hostUp i ifi)) ∧
    (joinUdp4Multicast hostUp [ifA, ifB, ifC]).err.isSome =
      (joinUdp6Multicast hostUp [ifA, ifB, ifC]).err.isSome ∧
    (joinUdp4Multicast hostUp [ifA, ifB, ifC]).pkConns.map mapKeys =
      (joinUdp6Multicast hostUp [ifA, ifB, ifC]).pkConns.map mapKeys :=
  ⟨⟨fun _ _ => rfl, fun _ _ => rfl⟩,
    (families_agree hostUp [ifA, ifB, ifC] (fun _ _ => rfl) (fun _ _ => rfl)).1,
    (families_agree hostUp [ifA, ifB, ifC] (fun _ _ => rfl) (fun _ _ => rfl)).2.1⟩

/-- C10: when two entries of the iterated list, at positions `i < j`, carry the same
identifier and both bind and join, the returned mapping holds a single entry for that
identifier; its connection was bound at position `j` or later, and is the connection
of position `j` when no later entry with that identifier succeeds; the connection of
position `i` is neither closed nor held by the mapping, and the mapping has fewer
entries than the list length minus the failure counter. When the identifiers of the
list are pairwise distinct, the number of entries of the returned mapping equals the
list length minus the failure counter, and every socket bound during the call is, on
return, either closed or held by the mapping. -/
theorem identifiers_duplicate_or_distinct (f : Family) (h : Host)
    (interfaces : List Interface) :
    (∀ i j a b, i < j →
      (iterated h interfaces)[i]? = some a → (iterated h interfaces)[j]? = some b →
      a.Index = b.Index →
      bindOk f h i a = true → joinOk f h i a = true →
      bindOk f h j b = true → joinOk f h j b = true →
      ∃ m c, (joinMulticast f h interfaces).pkConns = some m ∧
        (mapKeys m).count a.Index = 1 ∧ mapGet m a.Index = some c ∧ j ≤ c.sock ∧
        ((∀ j2 b2, j < j2 → (iterated h interfaces)[j2]? = some b2 → b2.Index = a.Index →
            bindOk f h j2 b2 = false ∨ joinOk f h j2 b2 = false) → c = connAt f j b) ∧
        Event.close i ∉ (joinMulticast f h interfaces).trace ∧
        i ∈ openSocks (joinMulticast f h interfaces).trace ∧
        (∀ e ∈ m, e.2.sock ≠ i) ∧
        m.length <
          (iterated h interfaces).length -
            (joinLoop f h (iterated h interfaces)).failedJoins) ∧
    (((iterated h interfaces).map Interface.Index).Nodup →
      mapLen (joinMulticast f h interfaces).pkConns =
        (iterated h interfaces).length -
          (joinLoop f h (iterated h interfaces)).failedJoins ∧
      ∀ n s ifi g, Event.listen n s ifi g true ∈ (joinMulticast f h interfaces).trace →
        (Event.close s ∈ (joinMulticast f h interfaces).trace ∧
          s ∉ openSocks (joinMulticast f h interfaces).trace) ∨
        ∃ m e, (joinMulticast f h interfaces).pkConns = some m ∧ e ∈ m ∧ e.2.sock = s) :=
  ⟨fun i j a b hij hi hj hidx hbi hji hbj hjj =>
      duplicate_identifier f h interfaces i j a b hij hi hj hidx hbi hji hbj hjj,
    fun hnd => distinct_identifiers f h interfaces hnd⟩

/-- C10, on the list `[A, A2]` of two entries with identifier 1 that both succeed: one
entry, holding the connection of the second; the socket of the first stays open; and on
the list `[A, B, C]` of distinct identifiers, where `B` fails to bind: two entries for
three interfaces and one failure. -/
theorem identifiers_duplicate_or_distinct_witness :
    ((joinMulticast Family.udp4 hostUp [ifA, ifA2]).pkConns =
        some [(1, connAt Family.udp4 1 ifA2)] ∧
      openSocks (joinMulticast Family.udp4 hostUp [ifA, ifA2]).trace = [0, 1] ∧
      (joinLoop Family.udp4 hostUp [ifA, ifA2]).failedJoins = 0) ∧
    (∃ m c, (joinMulticast Family.udp4 hostUp [ifA, ifA2]).pkConns = some m ∧
      (mapKeys m).count ifA.Index = 1 ∧ mapGet m ifA.Index = some c ∧ 1 ≤ c.sock ∧
      ((∀ j2 b2, 1 < j2 → (iterated hostUp [ifA, ifA2])[j2]? = some b2 →
          b2.Index = ifA.Index →
          bindOk Family.udp4 hostUp j2 b2 = false ∨ joinOk Family.udp4 hostUp j2 b2 = false) →
        c = connAt Family.udp4 1 ifA2) ∧
      Event.close 0 ∉ (joinMulticast Family.udp4 hostUp [ifA, ifA2]).trace ∧
      0 ∈ openSocks (joinMulticast Family.udp4 hostUp [ifA, ifA2]).trace ∧
      (∀ e ∈ m, e.2.sock ≠ 0) ∧
      m.length <
        (iterated hostUp [ifA, ifA2]).length -
          (joinLoop Family.udp4 hostUp (iterated hostUp [ifA, ifA2])).failedJoins) ∧
    (([ifA, ifB, ifC].map Interface.Index).Nodup ∧
      mapLen (joinMulticast Family.udp4 hostUp [ifA, ifB, ifC]).pkConns =
        (iterated hostUp [ifA, ifB, ifC]).length -
          (joinLoop Family.udp4 hostUp (iterated hostUp [ifA, ifB, ifC])).failedJoins) :=
  ⟨⟨by decide, by decide, by decide⟩,
    (identifiers_duplicate_or_distinct Family.udp4 hostUp [ifA, ifA2]).1 0 1 ifA ifA2
      (by decide) (by decide) (by decide) (by decide) (by decide) (by decide) (by decide)
      (by decide),
    by decide,
    ((identifiers_duplicate_or_distinct Family.udp4 hostUp [ifA, ifB, ifC]).2
      (by decide)).1⟩

end Zeroconf
